import Mathlib

/-!
Verification of `check_section_ids.py`: a validator for course-section
records that checks each record's `sectionId` against a fixed inclusive
range and renders a textual report.

The embedding mirrors the Python source:
* JSON-ish values are `JValue`; a record field read with `dict.get`
  yields `Option JValue` (`none` models an absent field).
* Python's `isinstance(x, int)` returns `True` for booleans, since
  `bool` is a subclass of `int`; `isinstanceInt` reflects that.
* `analyze_section_ids` raises `ValueError` when no key passed the
  type check; this is modelled with `Except String`.
* `format_report` builds a list of lines joined with a newline.
-/

/-- A JSON-like value as produced by Python's `json.load`.
`jother` stands for any other value (float, array, object), carrying its
Python `str` rendering; such values never pass the integer type check. -/
inductive JValue where
  | jnull : JValue
  | jbool : Bool → JValue
  | jint : Int → JValue
  | jstr : String → JValue
  | jother : String → JValue
deriving DecidableEq, Repr

/-- One input record; `none` models an absent field (in Python,
`entry.get(k)` returns `None` both for an absent key and a null value,
and both fail `isinstance(_, int)`). -/
structure Record where
  sectionId : Option JValue := none
  courseCode : Option JValue := none
  sectionName : Option JValue := none
deriving DecidableEq, Repr

/-- A diagnostic entry appended to `invalid_entries`; `issue = none`
models a dict without the `"issue"` key (the out-of-range case). -/
structure InvalidEntry where
  sectionId : Option JValue
  courseCode : Option JValue
  sectionName : Option JValue
  issue : Option String
deriving DecidableEq, Repr

/-- The aggregate returned by `analyze_section_ids`. -/
structure Stats where
  count : Nat
  min : Int
  max : Int
  invalid : List InvalidEntry
deriving DecidableEq, Repr

def MIN_SECTION_ID : Int := 100000

def MAX_SECTION_ID : Int := 999999

/-- Python's `isinstance(x, int)` on the value read from the record.
Crucially, Python booleans are instances of `int` (`bool` subclasses
`int`), so `jbool` passes the check. -/
def isinstanceInt : Option JValue → Bool
  | some (JValue.jint _) => true
  | some (JValue.jbool _) => true
  | _ => false

/-- The integer value Python uses for a value passing `isinstance(_, int)`:
booleans coerce to 0/1 in comparisons, `min` and `max`. -/
def intValue : Option JValue → Int
  | some (JValue.jint n) => n
  | some (JValue.jbool b) => if b then 1 else 0
  | _ => 0

/-- The loop body of `analyze_section_ids`, fused over the whole input:
returns the `section_ids` list and the `invalid_entries` list, both in
input order, exactly as the Python `for` loop builds them by appending. -/
def analyzeLoop : List Record → List Int × List InvalidEntry
  | [] => ([], [])
  | e :: rest =>
    let tail := analyzeLoop rest
    if isinstanceInt e.sectionId then
      if MIN_SECTION_ID ≤ intValue e.sectionId ∧ intValue e.sectionId ≤ MAX_SECTION_ID then
        (intValue e.sectionId :: tail.1, tail.2)
      else
        (intValue e.sectionId :: tail.1,
         { sectionId := e.sectionId, courseCode := e.courseCode,
           sectionName := e.sectionName, issue := none } :: tail.2)
    else
      (tail.1,
       { sectionId := e.sectionId, courseCode := e.courseCode,
         sectionName := e.sectionName,
         issue := some "Missing or non-integer sectionId" } :: tail.2)

/-- `analyze_section_ids(data)`: runs the loop, raises `ValueError`
(modelled as `Except.error`) when `section_ids` is empty, otherwise
returns the stats dict with `len`, `min`, `max` and the invalid list.
Python's `min`/`max` of a non-empty list are left folds of the binary
`min`/`max` over the list. -/
def analyze_section_ids (data : List Record) : Except String Stats :=
  match analyzeLoop data with
  | ([], _) => Except.error "No valid sectionId values found in the dataset."
  | (k :: ks, invs) =>
    Except.ok { count := (k :: ks).length, min := ks.foldl min k,
                max := ks.foldl max k, invalid := invs }

/-- Python `str()` of a value read with `.get`, as interpolated into the
report's f-strings (`None`, `True`, `False`, decimal integers, raw
strings). -/
def pyStr : Option JValue → String
  | none => "None"
  | some JValue.jnull => "None"
  | some (JValue.jbool true) => "True"
  | some (JValue.jbool false) => "False"
  | some (JValue.jint n) => toString n
  | some (JValue.jstr s) => s
  | some (JValue.jother s) => s

/-- One itemized line of the report:
`item.get('issue', 'out of range')` renders the literal default when the
`issue` key is absent. -/
def renderInvalidLine (item : InvalidEntry) : String :=
  "  - sectionId=" ++ pyStr item.sectionId ++
  " courseCode=" ++ pyStr item.courseCode ++
  " sectionName=" ++ pyStr item.sectionName ++
  " issue=" ++ (match item.issue with
                | some s => s
                | none => "out of range")

/-- The fixed first seven lines of the report (title, underline, count,
min, max, expected range, blank line). -/
def headerLines (stats : Stats) : List String :=
  ["Section ID Analysis",
   "====================",
   "Total entries checked: " ++ toString stats.count,
   "Minimum sectionId: " ++ toString stats.min,
   "Maximum sectionId: " ++ toString stats.max,
   "Expected range: " ++ toString MIN_SECTION_ID ++ " - " ++ toString MAX_SECTION_ID,
   ""]

/-- All lines of the report, in order: header, then either the all-ok
line or the invalid-entries header, at most 50 itemized entries and a
truncation notice when more than 50 exist. -/
def reportLines (stats : Stats) : List String :=
  headerLines stats ++
    (if stats.invalid.isEmpty then
      ["All section IDs fall within the expected range."]
     else
      ("Out-of-range or invalid section IDs (" ++ toString stats.invalid.length ++ "):") ::
        ((stats.invalid.take 50).map renderInvalidLine ++
         (if 50 < stats.invalid.length then ["  ... (truncated)"] else [])))

/-- `format_report(stats)`: the lines joined by `"\n".join(lines)`. -/
def format_report (stats : Stats) : String :=
  String.intercalate "\n" (reportLines stats)

/-- The key contributed by one record: `some` exactly when the value
passes the `isinstance(_, int)` type check. -/
def keyOf (e : Record) : Option Int :=
  if isinstanceInt e.sectionId then some (intValue e.sectionId) else none

/-- The invalid entry contributed by one record: a malformed-key entry
(with the issue message) on type failure, an out-of-range entry (without
an issue) when the integer lies outside the bounds, nothing otherwise. -/
def invalidOf (e : Record) : Option InvalidEntry :=
  if isinstanceInt e.sectionId then
    if MIN_SECTION_ID ≤ intValue e.sectionId ∧ intValue e.sectionId ≤ MAX_SECTION_ID then
      none
    else
      some { sectionId := e.sectionId, courseCode := e.courseCode,
             sectionName := e.sectionName, issue := none }
  else
    some { sectionId := e.sectionId, courseCode := e.courseCode,
           sectionName := e.sectionName,
           issue := some "Missing or non-integer sectionId" }

/-- Whether an invalid entry carries the `issue` key (type failure)
rather than signalling out-of-range by omission. -/
def hasIssue (e : InvalidEntry) : Bool :=
  e.issue.isSome

/-- Whether a type-checked key lies outside the inclusive bounds, i.e.
the condition under which the loop emits an out-of-range entry. -/
def outOfRange (k : Int) : Bool :=
  !decide (MIN_SECTION_ID ≤ k ∧ k ≤ MAX_SECTION_ID)

/-- The spec's three-record example input. -/
def exampleData : List Record :=
  [{ sectionId := some (JValue.jint 150000), courseCode := some (JValue.jstr "CS101"),
     sectionName := some (JValue.jstr "A") },
   { sectionId := some (JValue.jint 50), courseCode := some (JValue.jstr "CS102"),
     sectionName := some (JValue.jstr "B") },
   { sectionId := some (JValue.jstr "bad"), courseCode := some (JValue.jstr "CS103"),
     sectionName := some (JValue.jstr "C") }]

/-- The aggregate the spec's example is stated to produce. -/
def exampleStats : Stats :=
  { count := 2, min := 50, max := 150000,
    invalid := [{ sectionId := some (JValue.jint 50), courseCode := some (JValue.jstr "CS102"),
                  sectionName := some (JValue.jstr "B"), issue := none },
                { sectionId := some (JValue.jstr "bad"), courseCode := some (JValue.jstr "CS103"),
                  sectionName := some (JValue.jstr "C"),
                  issue := some "Missing or non-integer sectionId" }] }

/-- A statistics value with 51 identical invalid entries, exercising the
report truncation. -/
def reportStats51 : Stats :=
  { count := 1, min := 5, max := 5,
    invalid := List.replicate 51
      { sectionId := some (JValue.jint 5), courseCode := none,
        sectionName := none, issue := none } }

/-- A statistics value with an empty invalid list. -/
def emptyInvalidStats : Stats :=
  { count := 1, min := 5, max := 5, invalid := [] }

/-- A record whose `sectionId` is the boolean `True`. -/
def boolRecord : Record :=
  { sectionId := some (JValue.jbool true) }

/-- A record whose key is exactly `MIN_SECTION_ID`. -/
def recMin : Record :=
  { sectionId := some (JValue.jint 100000) }

/-- A record whose key is exactly `MAX_SECTION_ID`. -/
def recMax : Record :=
  { sectionId := some (JValue.jint 999999) }

/-- A record whose key is `MIN_SECTION_ID - 1`. -/
def recBelow : Record :=
  { sectionId := some (JValue.jint 99999) }

/-- A record whose key is `MAX_SECTION_ID + 1`. -/
def recAbove : Record :=
  { sectionId := some (JValue.jint 1000000) }

lemma analyzeLoop_eq (data : List Record) :
    analyzeLoop data = (data.filterMap keyOf, data.filterMap invalidOf) := by
  induction data with
  | nil => rfl
  | cons e rest ih =>
    simp only [analyzeLoop, ih, List.filterMap_cons, keyOf, invalidOf]
    by_cases h1 : isinstanceInt e.sectionId
    · by_cases h2 : MIN_SECTION_ID ≤ intValue e.sectionId ∧ intValue e.sectionId ≤ MAX_SECTION_ID
      · simp [h1, h2]
      · simp [h1, h2]
    · simp [h1]

lemma analyze_eq_error (data : List Record) (h : data.filterMap keyOf = []) :
    analyze_section_ids data = Except.error "No valid sectionId values found in the dataset." := by
  simp only [analyze_section_ids, analyzeLoop_eq, h]

lemma analyze_eq_ok (data : List Record) (k : Int) (ks : List Int)
    (h : data.filterMap keyOf = k :: ks) :
    analyze_section_ids data =
      Except.ok { count := (k :: ks).length, min := ks.foldl min k,
                  max := ks.foldl max k, invalid := data.filterMap invalidOf } := by
  simp only [analyze_section_ids, analyzeLoop_eq, h]

lemma foldl_min_le_init (ks : List Int) : ∀ k : Int, ks.foldl min k ≤ k := by
  induction ks with
  | nil => intro k; exact le_refl k
  | cons a ks ih =>
    intro k
    exact le_trans (ih (min k a)) (min_le_left k a)

lemma foldl_min_le (ks : List Int) (k : Int) : ∀ x ∈ k :: ks, ks.foldl min k ≤ x := by
  induction ks generalizing k with
  | nil =>
    intro x hx
    rcases List.mem_singleton.mp hx with rfl
    exact le_refl x
  | cons a ks ih =>
    intro x hx
    rcases List.mem_cons.mp hx with rfl | hx'
    · exact le_trans (foldl_min_le_init ks (min x a)) (min_le_left x a)
    · rcases List.mem_cons.mp hx' with rfl | hx''
      · exact le_trans (foldl_min_le_init ks (min k x)) (min_le_right k x)
      · exact ih (min k a) x (List.mem_cons_of_mem _ hx'')

lemma foldl_min_mem (ks : List Int) : ∀ k : Int, ks.foldl min k ∈ k :: ks := by
  induction ks with
  | nil => intro k; exact List.mem_singleton.mpr rfl
  | cons a ks ih =>
    intro k
    rw [List.foldl_cons]
    have h := ih (min k a)
    rcases List.mem_cons.mp h with h' | h'
    · rcases min_choice k a with hm | hm
      · rw [h', hm]; exact List.mem_cons_self _ _
      · rw [h', hm]; exact List.mem_cons_of_mem _ (List.mem_cons_self _ _)
    · exact List.mem_cons_of_mem _ (List.mem_cons_of_mem _ h')

lemma foldl_max_ge_init (ks : List Int) : ∀ k : Int, k ≤ ks.foldl max k := by
  induction ks with
  | nil => intro k; exact le_refl k
  | cons a ks ih =>
    intro k
    exact le_trans (le_max_left k a) (ih (max k a))

lemma foldl_max_ge (ks : List Int) (k : Int) : ∀ x ∈ k :: ks, x ≤ ks.foldl max k := by
  induction ks generalizing k with
  | nil =>
    intro x hx
    rcases List.mem_singleton.mp hx with rfl
    exact le_refl x
  | cons a ks ih =>
    intro x hx
    rcases List.mem_cons.mp hx with rfl | hx'
    · exact le_trans (le_max_left x a) (foldl_max_ge_init ks (max x a))
    · rcases List.mem_cons.mp hx' with rfl | hx''
      · exact le_trans (le_max_right k x) (foldl_max_ge_init ks (max k x))
      · exact ih (max k a) x (List.mem_cons_of_mem _ hx'')

lemma foldl_max_mem (ks : List Int) : ∀ k : Int, ks.foldl max k ∈ k :: ks := by
  induction ks with
  | nil => intro k; exact List.mem_singleton.mpr rfl
  | cons a ks ih =>
    intro k
    rw [List.foldl_cons]
    have h := ih (max k a)
    rcases List.mem_cons.mp h with h' | h'
    · rcases max_choice k a with hm | hm
      · rw [h', hm]; exact List.mem_cons_self _ _
      · rw [h', hm]; exact List.mem_cons_of_mem _ (List.mem_cons_self _ _)
    · exact List.mem_cons_of_mem _ (List.mem_cons_of_mem _ h')

lemma analyze_ok_inv (data : List Record) (s : Stats)
    (h : analyze_section_ids data = Except.ok s) :
    s.count = (data.filterMap keyOf).length ∧ s.invalid = data.filterMap invalidOf ∧
    ∃ k ks, data.filterMap keyOf = k :: ks ∧
      s.min = ks.foldl min k ∧ s.max = ks.foldl max k := by
  cases hk : data.filterMap keyOf with
  | nil =>
    rw [analyze_eq_error data hk] at h
    exact absurd h (by simp)
  | cons k ks =>
    rw [analyze_eq_ok data k ks hk] at h
    injection h with h'
    subst h'
    exact ⟨rfl, rfl, k, ks, rfl, rfl, rfl⟩

lemma conservation_core (data : List Record) :
    data.length = (data.filterMap keyOf).length +
        (data.filterMap invalidOf).countP hasIssue ∧
    (data.filterMap invalidOf).length =
      (data.filterMap invalidOf).countP hasIssue +
        (data.filterMap keyOf).countP outOfRange := by
  induction data with
  | nil => simp
  | cons e rest ih =>
    obtain ⟨ih1, ih2⟩ := ih
    by_cases h1 : isinstanceInt e.sectionId
    · by_cases h2 : MIN_SECTION_ID ≤ intValue e.sectionId ∧ intValue e.sectionId ≤ MAX_SECTION_ID
      · have g1 : (e :: rest).filterMap keyOf =
            intValue e.sectionId :: rest.filterMap keyOf := by
          simp [List.filterMap_cons, keyOf, h1]
        have g2 : (e :: rest).filterMap invalidOf = rest.filterMap invalidOf := by
          simp [List.filterMap_cons, invalidOf, h1, h2]
        have hpk : outOfRange (intValue e.sectionId) = false := by
          simp [outOfRange, h2]
        refine ⟨?_, ?_⟩
        · rw [g1, g2, List.length_cons, List.length_cons]
          omega
        · rw [g1, g2, List.countP_cons, hpk]
          simp only [Bool.false_eq_true, if_false]
          omega
      · have g1 : (e :: rest).filterMap keyOf =
            intValue e.sectionId :: rest.filterMap keyOf := by
          simp [List.filterMap_cons, keyOf, h1]
        have g2 : (e :: rest).filterMap invalidOf =
            { sectionId := e.sectionId, courseCode := e.courseCode,
              sectionName := e.sectionName,
              issue := none } :: rest.filterMap invalidOf := by
          simp [List.filterMap_cons, invalidOf, h1, h2]
        have hpk : outOfRange (intValue e.sectionId) = true := by
          simp [outOfRange, h2]
        have hhead : hasIssue
            ({ sectionId := e.sectionId, courseCode := e.courseCode,
               sectionName := e.sectionName, issue := none } : InvalidEntry) = false := by
          simp [hasIssue]
        refine ⟨?_, ?_⟩
        · rw [g1, g2, List.length_cons, List.length_cons, List.countP_cons, hhead]
          simp only [Bool.false_eq_true, if_false]
          omega
        · rw [g1, g2, List.length_cons, List.countP_cons, List.countP_cons, hhead, hpk]
          simp only [Bool.false_eq_true, if_false, if_true]
          omega
    · have g1 : (e :: rest).filterMap keyOf = rest.filterMap keyOf := by
        simp [List.filterMap_cons, keyOf, h1]
      have g2 : (e :: rest).filterMap invalidOf =
          { sectionId := e.sectionId, courseCode := e.courseCode,
            sectionName := e.sectionName,
            issue := some "Missing or non-integer sectionId" } :: rest.filterMap invalidOf := by
        simp [List.filterMap_cons, invalidOf, h1]
      have hhead : hasIssue
          ({ sectionId := e.sectionId, courseCode := e.courseCode,
             sectionName := e.sectionName,
             issue := some "Missing or non-integer sectionId" } : InvalidEntry) = true := by
        simp [hasIssue]
      refine ⟨?_, ?_⟩
      · rw [g1, g2, List.length_cons, List.countP_cons, hhead]
        simp only [if_true]
        omega
      · rw [g1, g2, List.length_cons, List.countP_cons, hhead]
        simp only [if_true]
        omega

/-- C1 (counterexample): a record whose `sectionId` holds the boolean
`True` is NOT classified as a malformed key. Python's
`isinstance(True, int)` holds, so the value is collected as the integer 1
(`count = 1`, `min = max = 1`) and the only invalid entry is an
out-of-range one with `issue = none`, not an entry with
`issue = "Missing or non-integer sectionId"` as the claim requires. -/
theorem analyze_bool_key_counterexample :
    analyze_section_ids
        [{ sectionId := some (JValue.jbool true), courseCode := some (JValue.jstr "CS101"),
           sectionName := some (JValue.jstr "A") }] =
      Except.ok { count := 1, min := 1, max := 1,
                  invalid := [{ sectionId := some (JValue.jbool true),
                                courseCode := some (JValue.jstr "CS101"),
                                sectionName := some (JValue.jstr "A"), issue := none }] } := by
  rfl

/-- C1 (amended): a boolean-valued `sectionId` passes the
`isinstance(_, int)` type check, so its value (`False` as 0, `True` as 1)
is appended to the collected keys; since 0 and 1 lie below
`MIN_SECTION_ID`, the record receives an out-of-range `InvalidEntry` with
no `issue` field, and the analysis returns normally with the boolean key
counted. -/
theorem analyze_bool_key_amended (pre post : List Record) (e : Record) (b : Bool)
    (h : e.sectionId = some (JValue.jbool b)) :
    (analyzeLoop (pre ++ e :: post)).1 =
      (analyzeLoop pre).1 ++ (if b then (1 : Int) else 0) :: (analyzeLoop post).1 ∧
    (analyzeLoop (pre ++ e :: post)).2 =
      (analyzeLoop pre).2 ++
        ({ sectionId := some (JValue.jbool b), courseCode := e.courseCode,
           sectionName := e.sectionName, issue := none } : InvalidEntry) ::
          (analyzeLoop post).2 ∧
    ∃ s, analyze_section_ids (pre ++ e :: post) = Except.ok s ∧
      s.count = (analyzeLoop (pre ++ e :: post)).1.length := by
  have hkey : keyOf e = some (if b then 1 else 0) := by
    simp [keyOf, isinstanceInt, intValue, h]
  have hinv : invalidOf e =
      some { sectionId := some (JValue.jbool b), courseCode := e.courseCode,
             sectionName := e.sectionName, issue := none } := by
    cases b <;>
      norm_num [invalidOf, isinstanceInt, intValue, h, MIN_SECTION_ID, MAX_SECTION_ID]
  refine ⟨?_, ?_, ?_⟩
  · simp [analyzeLoop_eq, List.filterMap_append, List.filterMap_cons, hkey]
  · simp [analyzeLoop_eq, List.filterMap_append, List.filterMap_cons, hinv]
  · have hL : (pre ++ e :: post).filterMap keyOf =
        pre.filterMap keyOf ++ (if b then (1 : Int) else 0) :: post.filterMap keyOf := by
      simp [List.filterMap_append, List.filterMap_cons, hkey]
    obtain ⟨k, ks, hkk⟩ : ∃ k ks, (pre ++ e :: post).filterMap keyOf = k :: ks := by
      rw [hL]
      cases hpre : pre.filterMap keyOf with
      | nil => exact ⟨_, _, rfl⟩
      | cons a t => exact ⟨a, t ++ (if b then (1 : Int) else 0) :: post.filterMap keyOf, rfl⟩
    refine ⟨_, analyze_eq_ok _ k ks hkk, ?_⟩
    simp [analyzeLoop_eq, hkk]

/-- C1 (witness): the amended statement instantiated at a single record
whose `sectionId` is the boolean `True`. -/
theorem analyze_bool_key_amended_witness :
    (analyzeLoop ([] ++ boolRecord :: [])).1 =
      (analyzeLoop []).1 ++ (if true then (1 : Int) else 0) :: (analyzeLoop []).1 ∧
    (analyzeLoop ([] ++ boolRecord :: [])).2 =
      (analyzeLoop []).2 ++
        ({ sectionId := some (JValue.jbool true), courseCode := boolRecord.courseCode,
           sectionName := boolRecord.sectionName, issue := none } : InvalidEntry) ::
          (analyzeLoop []).2 ∧
    ∃ s, analyze_section_ids ([] ++ boolRecord :: []) = Except.ok s ∧
      s.count = (analyzeLoop ([] ++ boolRecord :: [])).1.length :=
  analyze_bool_key_amended [] [] boolRecord true rfl

/-- C2: the analysis fails with the `ValueError` message exactly when no
record's `sectionId` passes the integer type check (in particular for the
empty input and when every record lacks the field); as soon as one record
passes the type check, a statistics value is returned. -/
theorem analyze_empty_dataset (data : List Record) :
    (analyze_section_ids data =
        Except.error "No valid sectionId values found in the dataset." ↔
      ∀ e ∈ data, isinstanceInt e.sectionId = false) ∧
    ((∃ e ∈ data, isinstanceInt e.sectionId = true) →
      ∃ s, analyze_section_ids data = Except.ok s) := by
  have hpt : ∀ e : Record, keyOf e = none ↔ isinstanceInt e.sectionId = false := by
    intro e
    by_cases hb : isinstanceInt e.sectionId
    · simp [keyOf, hb]
    · simp [keyOf, hb]
  have hnil : data.filterMap keyOf = [] ↔ ∀ e ∈ data, isinstanceInt e.sectionId = false := by
    rw [List.filterMap_eq_nil_iff]
    exact ⟨fun h e he => (hpt e).mp (h e he), fun h e he => (hpt e).mpr (h e he)⟩
  constructor
  · constructor
    · intro h
      cases hk : data.filterMap keyOf with
      | nil => exact hnil.mp hk
      | cons k ks =>
        rw [analyze_eq_ok data k ks hk] at h
        exact absurd h (by simp)
    · intro h
      exact analyze_eq_error data (hnil.mpr h)
  · rintro ⟨e, he, hte⟩
    cases hk : data.filterMap keyOf with
    | nil =>
      have hf := hnil.mp hk e he
      rw [hte] at hf
      exact absurd hf (by simp)
    | cons k ks => exact ⟨_, analyze_eq_ok data k ks hk⟩

/-- C2 (witness): the empty input fails with the error, and a singleton
input with an integer key returns normally. -/
theorem analyze_empty_dataset_witness :
    analyze_section_ids ([] : List Record) =
        Except.error "No valid sectionId values found in the dataset." ∧
    ∃ s, analyze_section_ids [({ sectionId := some (JValue.jint 5) } : Record)] =
      Except.ok s :=
  ⟨(analyze_empty_dataset []).1.mpr (by simp),
   (analyze_empty_dataset [{ sectionId := some (JValue.jint 5) }]).2
     ⟨{ sectionId := some (JValue.jint 5) }, by simp, rfl⟩⟩

/-- C3: the accepted interval is inclusive: a record whose integer key is
exactly `MIN_SECTION_ID` or `MAX_SECTION_ID` contributes no invalid
entry, while a key of `MIN_SECTION_ID - 1` or `MAX_SECTION_ID + 1`
contributes exactly one out-of-range entry (with no issue field). -/
theorem range_bounds_inclusive (pre post : List Record) (e : Record) (k : Int)
    (h : e.sectionId = some (JValue.jint k)) :
    ((k = MIN_SECTION_ID ∨ k = MAX_SECTION_ID) →
      (analyzeLoop (pre ++ e :: post)).2 = (analyzeLoop pre).2 ++ (analyzeLoop post).2) ∧
    ((k = MIN_SECTION_ID - 1 ∨ k = MAX_SECTION_ID + 1) →
      (analyzeLoop (pre ++ e :: post)).2 =
        (analyzeLoop pre).2 ++
          ({ sectionId := some (JValue.jint k), courseCode := e.courseCode,
             sectionName := e.sectionName, issue := none } : InvalidEntry) ::
            (analyzeLoop post).2) := by
  constructor
  · intro hk
    have hinv : invalidOf e = none := by
      rcases hk with rfl | rfl <;>
        norm_num [invalidOf, isinstanceInt, intValue, h, MIN_SECTION_ID, MAX_SECTION_ID]
    simp [analyzeLoop_eq, List.filterMap_append, List.filterMap_cons, hinv]
  · intro hk
    have hinv : invalidOf e =
        some { sectionId := some (JValue.jint k), courseCode := e.courseCode,
               sectionName := e.sectionName, issue := none } := by
      rcases hk with rfl | rfl <;>
        norm_num [invalidOf, isinstanceInt, intValue, h, MIN_SECTION_ID, MAX_SECTION_ID]
    simp [analyzeLoop_eq, List.filterMap_append, List.filterMap_cons, hinv]

/-- C3 (witness): instantiated at singleton inputs with keys 100000,
999999, 99999 and 1000000. -/
theorem range_bounds_inclusive_witness :
    (analyzeLoop ([] ++ recMin :: [])).2 = (analyzeLoop []).2 ++ (analyzeLoop []).2 ∧
    (analyzeLoop ([] ++ recMax :: [])).2 = (analyzeLoop []).2 ++ (analyzeLoop []).2 ∧
    (analyzeLoop ([] ++ recBelow :: [])).2 =
      (analyzeLoop []).2 ++
        ({ sectionId := some (JValue.jint 99999), courseCode := recBelow.courseCode,
           sectionName := recBelow.sectionName, issue := none } : InvalidEntry) ::
          (analyzeLoop []).2 ∧
    (analyzeLoop ([] ++ recAbove :: [])).2 =
      (analyzeLoop []).2 ++
        ({ sectionId := some (JValue.jint 1000000), courseCode := recAbove.courseCode,
           sectionName := recAbove.sectionName, issue := none } : InvalidEntry) ::
          (analyzeLoop []).2 :=
  ⟨(range_bounds_inclusive [] [] recMin 100000 rfl).1 (Or.inl (by decide)),
   (range_bounds_inclusive [] [] recMax 999999 rfl).1 (Or.inr (by decide)),
   (range_bounds_inclusive [] [] recBelow 99999 rfl).2 (Or.inl (by decide)),
   (range_bounds_inclusive [] [] recAbove 1000000 rfl).2 (Or.inr (by decide))⟩

/-- C4: whenever the analysis returns, `count` is the number of records
whose key passed the integer type check, and `min`/`max` are the minimum
and maximum over exactly those keys (including out-of-range ones);
moreover the spec's three-record example yields
`count = 2, min = 50, max = 150000` with two invalid entries. -/
theorem count_min_max_over_typed_keys :
    (∀ (data : List Record) (s : Stats), analyze_section_ids data = Except.ok s →
      s.count = (data.filterMap keyOf).length ∧
      s.min ∈ data.filterMap keyOf ∧ (∀ x ∈ data.filterMap keyOf, s.min ≤ x) ∧
      s.max ∈ data.filterMap keyOf ∧ (∀ x ∈ data.filterMap keyOf, x ≤ s.max)) ∧
    analyze_section_ids exampleData = Except.ok exampleStats := by
  constructor
  · intro data s h
    obtain ⟨hc, _, k, ks, hk, hmin, hmax⟩ := analyze_ok_inv data s h
    refine ⟨hc, ?_, ?_, ?_, ?_⟩
    · rw [hk, hmin]; exact foldl_min_mem ks k
    · intro x hx; rw [hmin]; exact foldl_min_le ks k x (hk ▸ hx)
    · rw [hk, hmax]; exact foldl_max_mem ks k
    · intro x hx; rw [hmax]; exact foldl_max_ge ks k x (hk ▸ hx)
  · rfl

/-- C4 (witness): the binder-free parts instantiated at the spec's
example. -/
theorem count_min_max_over_typed_keys_witness :
    exampleStats.count = (exampleData.filterMap keyOf).length ∧
    exampleStats.min ∈ exampleData.filterMap keyOf ∧
    exampleStats.max ∈ exampleData.filterMap keyOf := by
  obtain ⟨h1, h2, _, h4, _⟩ :=
    count_min_max_over_typed_keys.1 exampleData exampleStats
      count_min_max_over_typed_keys.2
  exact ⟨h1, h2, h4⟩

/-- C5: with more than 50 invalid entries the report itemizes exactly the
first 50 entries, one per line, followed by exactly one truncation-notice
line; an entry without an `issue` field renders the literal text
`out of range`. -/
theorem report_truncates_at_fifty (stats : Stats) (h : 50 < stats.invalid.length) :
    reportLines stats =
      headerLines stats ++
        ("Out-of-range or invalid section IDs (" ++ toString stats.invalid.length ++ "):") ::
          ((stats.invalid.take 50).map renderInvalidLine ++ ["  ... (truncated)"]) ∧
    ((stats.invalid.take 50).map renderInvalidLine).length = 50 ∧
    (∀ item : InvalidEntry, item.issue = none →
      renderInvalidLine item =
        "  - sectionId=" ++ pyStr item.sectionId ++ " courseCode=" ++ pyStr item.courseCode ++
        " sectionName=" ++ pyStr item.sectionName ++ " issue=" ++ "out of range") ∧
    format_report stats = String.intercalate "\n" (reportLines stats) := by
  have hne : stats.invalid ≠ [] := by
    intro hl
    rw [hl] at h
    simp at h
  refine ⟨?_, ?_, ?_, rfl⟩
  · simp [reportLines, List.isEmpty_iff, hne, h]
  · rw [List.length_map, List.length_take]
    omega
  · intro item hi
    simp [renderInvalidLine, hi]

/-- C5 (witness): instantiated at a statistics value with 51 invalid
entries. -/
theorem report_truncates_at_fifty_witness :
    reportLines reportStats51 =
      headerLines reportStats51 ++
        ("Out-of-range or invalid section IDs (" ++
            toString reportStats51.invalid.length ++ "):") ::
          ((reportStats51.invalid.take 50).map renderInvalidLine ++ ["  ... (truncated)"]) ∧
    ((reportStats51.invalid.take 50).map renderInvalidLine).length = 50 ∧
    renderInvalidLine { sectionId := some (JValue.jint 5), courseCode := none,
                        sectionName := none, issue := none } =
      "  - sectionId=" ++ pyStr (some (JValue.jint 5)) ++ " courseCode=" ++ pyStr none ++
        " sectionName=" ++ pyStr none ++ " issue=" ++ "out of range" ∧
    format_report reportStats51 = String.intercalate "\n" (reportLines reportStats51) := by
  obtain ⟨h1, h2, h3, h4⟩ :=
    report_truncates_at_fifty reportStats51 (by simp [reportStats51])
  exact ⟨h1, h2, h3 _ rfl, h4⟩

/-- C6: with an empty invalid list the report is exactly the seven header
lines followed by the single all-in-range line, joined by single
newlines; no itemized-entries header appears. -/
theorem report_all_in_range (stats : Stats) (h : stats.invalid = []) :
    reportLines stats =
      ["Section ID Analysis",
       "====================",
       "Total entries checked: " ++ toString stats.count,
       "Minimum sectionId: " ++ toString stats.min,
       "Maximum sectionId: " ++ toString stats.max,
       "Expected range: " ++ toString MIN_SECTION_ID ++ " - " ++ toString MAX_SECTION_ID,
       "",
       "All section IDs fall within the expected range."] ∧
    format_report stats = String.intercalate "\n" (reportLines stats) := by
  refine ⟨?_, rfl⟩
  simp [reportLines, headerLines, h]

/-- C6 (witness): instantiated at a statistics value with no invalid
entries. -/
theorem report_all_in_range_witness :
    reportLines emptyInvalidStats =
      ["Section ID Analysis",
       "====================",
       "Total entries checked: " ++ toString emptyInvalidStats.count,
       "Minimum sectionId: " ++ toString emptyInvalidStats.min,
       "Maximum sectionId: " ++ toString emptyInvalidStats.max,
       "Expected range: " ++ toString MIN_SECTION_ID ++ " - " ++ toString MAX_SECTION_ID,
       "",
       "All section IDs fall within the expected range."] ∧
    format_report emptyInvalidStats =
      String.intercalate "\n" (reportLines emptyInvalidStats) :=
  report_all_in_range emptyInvalidStats rfl

/-- C7: the invalid list is the in-order image of the input records under
the per-record classification, so it preserves input order and each
record contributes at most one entry; the entry carries the issue message
exactly on type failure and omits it exactly on a range failure, never
both. -/
theorem invalid_entries_order (data : List Record) (s : Stats)
    (h : analyze_section_ids data = Except.ok s) :
    s.invalid = data.filterMap invalidOf ∧
    (∀ e : Record,
      (isinstanceInt e.sectionId = false →
        invalidOf e =
          some { sectionId := e.sectionId, courseCode := e.courseCode,
                 sectionName := e.sectionName,
                 issue := some "Missing or non-integer sectionId" }) ∧
      (isinstanceInt e.sectionId = true →
        ((MIN_SECTION_ID ≤ intValue e.sectionId ∧ intValue e.sectionId ≤ MAX_SECTION_ID) →
            invalidOf e = none) ∧
        (¬(MIN_SECTION_ID ≤ intValue e.sectionId ∧ intValue e.sectionId ≤ MAX_SECTION_ID) →
            invalidOf e =
              some { sectionId := e.sectionId, courseCode := e.courseCode,
                     sectionName := e.sectionName, issue := none }))) := by
  obtain ⟨_, hi, _⟩ := analyze_ok_inv data s h
  refine ⟨hi, ?_⟩
  intro e
  refine ⟨fun hf => ?_, fun ht => ⟨fun hr => ?_, fun hr => ?_⟩⟩
  · simp [invalidOf, hf]
  · simp [invalidOf, ht, hr]
  · simp [invalidOf, ht, hr]

/-- C7 (witness): the order-preservation equation instantiated at the
spec's example. -/
theorem invalid_entries_order_witness :
    exampleStats.invalid = exampleData.filterMap invalidOf :=
  (invalid_entries_order exampleData exampleStats rfl).1

/-- C8: the analysis is deterministic: equal inputs yield equal results,
and two successful runs agree on `count`, `min`, `max` and the invalid
list (the embedding is a pure function, so the input is not mutated). -/
theorem analyze_deterministic (d1 d2 : List Record) (h : d1 = d2) :
    analyze_section_ids d1 = analyze_section_ids d2 ∧
    ∀ s1 s2 : Stats, analyze_section_ids d1 = Except.ok s1 →
      analyze_section_ids d2 = Except.ok s2 →
      s1.count = s2.count ∧ s1.min = s2.min ∧ s1.max = s2.max ∧
        s1.invalid = s2.invalid := by
  subst h
  refine ⟨rfl, ?_⟩
  intro s1 s2 h1 h2
  rw [h1] at h2
  injection h2 with h3
  subst h3
  exact ⟨rfl, rfl, rfl, rfl⟩

/-- C8 (witness): two runs on the spec's example agree. -/
theorem analyze_deterministic_witness :
    analyze_section_ids exampleData = analyze_section_ids exampleData ∧
    (exampleStats.count = exampleStats.count ∧ exampleStats.min = exampleStats.min ∧
      exampleStats.max = exampleStats.max ∧
      exampleStats.invalid = exampleStats.invalid) :=
  ⟨(analyze_deterministic exampleData exampleData rfl).1,
   (analyze_deterministic exampleData exampleData rfl).2 exampleStats exampleStats rfl rfl⟩

/-- C9: on a successful run, the number of input records equals `count`
plus the number of invalid entries carrying an `issue` field, and the
invalid list's length equals that number of type-failed records plus the
number of type-checked keys lying outside the bounds. -/
theorem record_count_conservation (data : List Record) (s : Stats)
    (h : analyze_section_ids data = Except.ok s) :
    data.length = s.count + s.invalid.countP hasIssue ∧
    s.invalid.length =
      s.invalid.countP hasIssue + (data.filterMap keyOf).countP outOfRange := by
  obtain ⟨hc, hi, _⟩ := analyze_ok_inv data s h
  rw [hc, hi]
  exact conservation_core data

/-- C9 (witness): instantiated at the spec's example. -/
theorem record_count_conservation_witness :
    exampleData.length = exampleStats.count + exampleStats.invalid.countP hasIssue ∧
    exampleStats.invalid.length =
      exampleStats.invalid.countP hasIssue +
        (exampleData.filterMap keyOf).countP outOfRange :=
  record_count_conservation exampleData exampleStats rfl

/-- C10: the bounds are exactly 100000 and 999999, and the sixth report
line (index 5) always renders as the literal text
`Expected range: 100000 - 999999`. -/
theorem range_constants_literal :
    MIN_SECTION_ID = 100000 ∧ MAX_SECTION_ID = 999999 ∧
    ∀ stats : Stats, (reportLines stats)[5]? = some "Expected range: 100000 - 999999" :=
  ⟨rfl, rfl, fun _ => rfl⟩
